import Mathlib

/-!
A verification development for the Portfolio-Sorter repository.

The embedding models the three core components of the program:
  * `categorizer.py`  — `LLMCategorizer.categorize_text` and its static keyword table;
  * `text_extractor.py` — `extract_text` and the four per-format helpers;
  * `file_utils.py` / `main_sorter.py` — directory creation, file moving, and the
    per-file orchestration loop `process_files`.

Modelling conventions:
  * Python strings that carry document text are modelled as `List Nat` (their code
    points); `str.lower` and `str.strip` are modelled on ASCII, which covers every
    keyword pattern and extension the program uses.
  * Every pattern in the keyword table is a regex literal (no metacharacters), so
    `re.search(pattern, text)` is modelled as substring search.
  * Fallible operations return `Except`; a raised Python exception is an `.error`.
  * The filesystem is an explicit state: a set of directory paths and an
    association list from file paths to parse data.  The outcome each document
    parsing library would produce for a given file (paragraphs, pages, sheets,
    slides, or a raised exception) is part of that file's data, since the byte
    level parsers are external collaborators.
-/

/-! ## Categorizer (`src/categorizer.py`) -/

/-- Model of `str.lower` on one code point (ASCII range, which covers all
keywords and extensions used by the program). -/
def lowerCp (n : Nat) : Nat :=
  if 65 ≤ n ∧ n ≤ 90 then n + 32 else n

/-- Model of `str.upper` on one code point (ASCII range). -/
def upperCp (n : Nat) : Nat :=
  if 97 ≤ n ∧ n ≤ 122 then n - 32 else n

/-- The ASCII whitespace code points stripped by Python's `str.strip()`:
tab, newline, vertical tab, form feed, carriage return, space. -/
def isSpaceCp (n : Nat) : Bool :=
  decide (n = 9 ∨ n = 10 ∨ n = 11 ∨ n = 12 ∨ n = 13 ∨ n = 32)

/-- `text.lower()` over a whole string. -/
def pyLower (t : List Nat) : List Nat := t.map lowerCp

/-- `text.strip()`: drop whitespace from both ends. -/
def pyStrip (t : List Nat) : List Nat :=
  ((t.dropWhile isSpaceCp).reverse.dropWhile isSpaceCp).reverse

/-- Convert a Lean string literal into its list of code points; used to write
down the program's keyword patterns and document texts. -/
def kw (s : String) : List Nat := s.toList.map Char.toNat

/-- `re.search(pattern, text)` for a literal pattern: does `pat` occur as a
contiguous substring of `text`? -/
def reSearch (pat : List Nat) : List Nat → Bool
  | [] => pat.isPrefixOf ([] : List Nat)
  | c :: rest => pat.isPrefixOf (c :: rest) || reSearch pat rest

/-- `PREDEFINED_CATEGORIES` from `categorizer.py`. -/
def PREDEFINED_CATEGORIES : List String :=
  ["Theses & Dissertations",
   "Coursework & Term Papers",
   "Certificates & Diplomas",
   "Tests & Quizzes",
   "Answer Keys & Solutions",
   "Presentations",
   "Formal Documents & Correspondence",
   "Books & Textbooks",
   "Learning Materials & Study Guides",
   "Reports"]

/-- The static keyword table `LLMCategorizer._category_keywords`, in insertion
order.  Every pattern is a regex literal, recorded here as its code points. -/
def category_keywords : List (String × List (List Nat)) :=
  [("Theses & Dissertations", [kw "thesis", kw "dissertation"]),
   ("Coursework & Term Papers", [kw "coursework", kw "term paper", kw "assignment", kw "essay"]),
   ("Certificates & Diplomas", [kw "certificate", kw "diploma", kw "certification", kw "degree"]),
   ("Tests & Quizzes", [kw "test", kw "quiz", kw "exam", kw "midterm", kw "final exam"]),
   ("Answer Keys & Solutions", [kw "answer key", kw "solution", kw "solutions manual"]),
   ("Presentations", [kw "presentation", kw "slides", kw "powerpoint", kw "keynote"]),
   ("Formal Documents & Correspondence", [kw "letter", kw "memo", kw "memorandum", kw "contract", kw "agreement", kw "official document"]),
   ("Books & Textbooks", [kw "book", kw "textbook", kw "manual", kw "e-book"]),
   ("Learning Materials & Study Guides", [kw "study guide", kw "notes", kw "handout", kw "worksheet", kw "learning material"]),
   ("Reports", [kw "report", kw "summary", kw "analysis", kw "findings"])]

/-- Dictionary lookup `self._category_keywords[name]`, `none` when
`name not in self._category_keywords`. -/
def lookupKeywords (name : String) : Option (List (List Nat)) :=
  (category_keywords.find? (fun e => e.1 == name)).map Prod.snd

/-- `LLMCategorizer.categorize_text`, translated clause by clause:
empty/whitespace guard, lowercase once, then the two nested first-match loops
with early return. -/
def categorize_text (text : List Nat) (categories : List String) : Option String :=
  if text.isEmpty || (pyStrip text).isEmpty then none
  else
    let lower_text := pyLower text
    categories.findSome? (fun category_name =>
      match lookupKeywords category_name with
      | some keywords =>
          if keywords.any (fun p => reSearch p lower_text) then some category_name else none
      | none => none)

/-- Written from the spec's words for the refinement claim about
`categorize_text`: a category qualifies when it "has a registered keyword rule"
and one of "its patterns … matches anywhere in the lowercased text". -/
def specQualifies (lower_text : List Nat) (category : String) : Bool :=
  match lookupKeywords category with
  | some pats => pats.any (fun p => reSearch p lower_text)
  | none => false

/-! ## Text extractor (`src/text_extractor.py`) -/

/-- The Python exceptions `extract_text` can raise or propagate:
`FileNotFoundError`, the custom `TextExtractionError`, or any other (raw
library) exception. -/
inductive PyExc : Type where
  | fileNotFound (msg : String)
  | textExtractionError (msg : String)
  | other (msg : String)
deriving DecidableEq

/-- Equality of modelled Python outcomes is decidable. -/
instance exceptDecEq {ε α : Type} [DecidableEq ε] [DecidableEq α] :
    DecidableEq (Except ε α) := fun x y =>
  match x, y with
  | Except.ok a, Except.ok b =>
    if h : a = b then isTrue (by rw [h])
    else isFalse (by intro hc; cases hc; exact h rfl)
  | Except.ok _, Except.error _ => isFalse (by intro hc; cases hc)
  | Except.error _, Except.ok _ => isFalse (by intro hc; cases hc)
  | Except.error e, Except.error f =>
    if h : e = f then isTrue (by rw [h])
    else isFalse (by intro hc; cases hc; exact h rfl)

/-- What the four external parsing libraries would yield for one file:
 * `docxParas`  — `python-docx`: the paragraph texts, in document order;
 * `pdfPages`   — `pypdf`: per page, `page.extract_text()` (which may be `None`);
 * `excelSheets`— `openpyxl`: sheets in workbook order, rows in row order,
    each cell either `None` or its value already coerced by `str(...)`;
 * `pptxSlides` — `python-pptx`: slides in order, each shape either lacking a
    `text` attribute (`none`) or exposing its text.
An `Except.error` is the message of the exception the library would raise. -/
structure FileData : Type where
  docxParas : Except String (List (List Nat))
  pdfPages : Except String (List (Option (List Nat)))
  excelSheets : Except String (List (List (List (Option (List Nat)))))
  pptxSlides : Except String (List (List (Option (List Nat))))
deriving DecidableEq

/-- A parse data record for files whose contents are never consulted. -/
def blankData : FileData :=
  { docxParas := Except.ok [], pdfPages := Except.ok []
    excelSheets := Except.ok [], pptxSlides := Except.ok [] }

/-- The message of a `TextExtractionError` raised by one of the per-format
helpers: in the source, the f-string
`"Failed to extract text from <FMT> '<path>': <cause>"` (the quote characters
around the path are elided in the model). -/
def teeMsg (fmt path cause : String) : String :=
  "Failed to extract text from " ++ fmt ++ " " ++ path ++ ": " ++ cause

/-- The last path segment: everything after the final slash.  Models the
basename part of `os.path` helpers (POSIX separator). -/
def lastSegment (l : List Char) : List Char :=
  l.foldl (fun acc c => if c = '/' then [] else acc ++ [c]) []

/-- The suffix of `l` starting at its last dot (inclusive), if any. -/
def lastDotSuffix : List Char → Option (List Char)
  | [] => none
  | c :: rest =>
    match lastDotSuffix rest with
    | some s => some s
    | none => if c = '.' then some (c :: rest) else none

/-- `os.path.splitext(path)[1]`: the extension of the basename, taken from its
last dot, with the leading dots of the basename not counting as extension
separators (so a leading-dot filename has no extension). -/
def splitext_ext (path : String) : String :=
  let base := lastSegment path.toList
  let stripped := base.dropWhile (fun c => c = '.')
  match lastDotSuffix stripped with
  | some s => s.asString
  | none => ""

/-- `os.path.splitext(file_path)[1].lower()`. -/
def extLower (path : String) : String :=
  ((splitext_ext path).toList.map Char.toLower).asString

/-- `DOC_EXTENSIONS` from `text_extractor.py`. -/
def DOC_EXTENSIONS : List String := [".doc", ".docx"]

/-- `PDF_EXTENSIONS` from `text_extractor.py`. -/
def PDF_EXTENSIONS : List String := [".pdf"]

/-- `EXCEL_EXTENSIONS` from `text_extractor.py`. -/
def EXCEL_EXTENSIONS : List String := [".xls", ".xlsx"]

/-- `POWERPOINT_EXTENSIONS` from `text_extractor.py`. -/
def POWERPOINT_EXTENSIONS : List String := [".ppt", ".pptx"]

/-- `ALL_SUPPORTED_EXTENSIONS = DOC + PDF + EXCEL + POWERPOINT`. -/
def ALL_SUPPORTED_EXTENSIONS : List String :=
  DOC_EXTENSIONS ++ PDF_EXTENSIONS ++ EXCEL_EXTENSIONS ++ POWERPOINT_EXTENSIONS

/-- `_extract_text_from_docx`: join all paragraph texts with newlines; wrap any
library exception in a `TextExtractionError`. -/
def extract_text_from_docx (path : String) (d : FileData) : Except PyExc (List Nat) :=
  match d.docxParas with
  | Except.ok paras => Except.ok (List.intercalate [10] paras)
  | Except.error e => Except.error (PyExc.textExtractionError (teeMsg "DOCX" path e))

/-- `_extract_text_from_pdf`: each page contributes `page.extract_text() or ""`
(a `None` page becomes the empty string); the pages are joined with newlines. -/
def extract_text_from_pdf (path : String) (d : FileData) : Except PyExc (List Nat) :=
  match d.pdfPages with
  | Except.ok pages => Except.ok (List.intercalate [10] (pages.map (fun p => p.getD [])))
  | Except.error e => Except.error (PyExc.textExtractionError (teeMsg "PDF" path e))

/-- The triple-nested cell loop of `_extract_text_from_excel`: append
`str(cell.value)` for every cell whose value is not `None`, sheets in workbook
order, rows in row order. -/
def excelCellLines (sheets : List (List (List (Option (List Nat))))) : List (List Nat) :=
  sheets.foldl (fun acc sheet =>
    sheet.foldl (fun acc row =>
      row.foldl (fun acc cell =>
        match cell with
        | some v => acc ++ [v]
        | none => acc) acc) acc) []

/-- `_extract_text_from_excel`: the collected cell values joined with
newlines; library exceptions wrapped. -/
def extract_text_from_excel (path : String) (d : FileData) : Except PyExc (List Nat) :=
  match d.excelSheets with
  | Except.ok sheets => Except.ok (List.intercalate [10] (excelCellLines sheets))
  | Except.error e => Except.error (PyExc.textExtractionError (teeMsg "Excel" path e))

/-- The shape loop of `_extract_text_from_pptx`: append `shape.text` for every
shape that has a `text` attribute. -/
def pptxShapeLines (slides : List (List (Option (List Nat)))) : List (List Nat) :=
  slides.foldl (fun acc slide =>
    slide.foldl (fun acc shape =>
      match shape with
      | some t => acc ++ [t]
      | none => acc) acc) []

/-- `_extract_text_from_pptx`. -/
def extract_text_from_pptx (path : String) (d : FileData) : Except PyExc (List Nat) :=
  match d.pptxSlides with
  | Except.ok slides => Except.ok (List.intercalate [10] (pptxShapeLines slides))
  | Except.error e => Except.error (PyExc.textExtractionError (teeMsg "PowerPoint" path e))

/-- `extract_text`, translated branch by branch.  `fd` is what the filesystem
holds at `path` (`none` models `os.path.isfile` being false).  `Except.ok none`
is Python's `return None`; the final duplicated branch mirrors the source's
unreachable "listed in a specific group but not ALL_SUPPORTED_EXTENSIONS"
fallback.  The enclosing try/except re-raises `TextExtractionError` unchanged
and would wrap any other dispatch-level exception; no branch of the dispatch
raises anything else, so it is the re-raise that happens. -/
def extract_text (path : String) (fd : Option FileData) : Except PyExc (Option (List Nat)) :=
  match fd with
  | none => Except.error (PyExc.fileNotFound ("File not found: " ++ path))
  | some d =>
    if extLower path ∈ DOC_EXTENSIONS then
      if extLower path = ".doc" then Except.ok none
      else
        match extract_text_from_docx path d with
        | Except.ok t => Except.ok (some t)
        | Except.error e => Except.error e
    else if extLower path ∈ PDF_EXTENSIONS then
      match extract_text_from_pdf path d with
      | Except.ok t => Except.ok (some t)
      | Except.error e => Except.error e
    else if extLower path ∈ EXCEL_EXTENSIONS then
      match extract_text_from_excel path d with
      | Except.ok t => Except.ok (some t)
      | Except.error e => Except.error e
    else if extLower path ∈ POWERPOINT_EXTENSIONS then
      match extract_text_from_pptx path d with
      | Except.ok t => Except.ok (some t)
      | Except.error e => Except.error e
    else if extLower path ∉ ALL_SUPPORTED_EXTENSIONS then Except.ok none
    else Except.ok none

/-! ## Filesystem state, `file_utils.py`, and the orchestrator loop -/

/-- The filesystem visible to the program: the set of existing directories and
an association from file paths to their parse data. -/
structure FS : Type where
  dirs : List String
  files : List (String × FileData)
deriving DecidableEq

/-- `os.path.isfile` plus reading the file: the parse data at `p`, if any. -/
def FS.lookupFile (fs : FS) (p : String) : Option FileData :=
  (fs.files.find? (fun e => e.1 == p)).map Prod.snd

/-- Remove the entry at `p` (the source side of a move). -/
def FS.removeFile (fs : FS) (p : String) : FS :=
  { fs with files := fs.files.filter (fun e => !(e.1 == p)) }

/-- Write the entry at `p` (the destination side of a move; an existing file at
`p` is overwritten, which is what `shutil.move` does on one filesystem). -/
def FS.setFile (fs : FS) (p : String) (d : FileData) : FS :=
  { fs with files := (p, d) :: (fs.files.filter (fun e => !(e.1 == p))) }

/-- `Path.mkdir(parents=True, exist_ok=existOk)`: with `exist_ok` an existing
directory is not an error; otherwise `FileExistsError` is raised.  (The model
records the requested path; ancestor entries are immaterial to the claims.) -/
def FS.mkdir (fs : FS) (p : String) (existOk : Bool) : Except String FS :=
  if p ∈ fs.dirs then
    if existOk then Except.ok fs else Except.error "FileExistsError"
  else Except.ok { fs with dirs := p :: fs.dirs }

/-- `create_target_subdir`: build `Path(target_dir) / subdir_name`, create it
with `parents=True, exist_ok=True` (an `OSError` would be re-raised), and
return the subdirectory path. -/
def create_target_subdir (fs : FS) (target_dir subdir_name : String) :
    Except String (FS × String) :=
  match fs.mkdir (target_dir ++ "/" ++ subdir_name) true with
  | Except.ok fs1 => Except.ok (fs1, target_dir ++ "/" ++ subdir_name)
  | Except.error e => Except.error e

/-- `os.path.basename`. -/
def basename (p : String) : String := (lastSegment p.toList).asString

/-- `move_file_to_directory`: raise `FileNotFoundError` if the source file is
gone; create the target directory if missing; move the file to
`target_dir_path/<basename>`. -/
def move_file_to_directory (fs : FS) (source_file_path target_dir_path : String) :
    Except String FS :=
  match fs.lookupFile source_file_path with
  | none => Except.error ("Source file not found: " ++ source_file_path)
  | some d =>
    Except.ok
      (((if target_dir_path ∈ fs.dirs then fs
         else { fs with dirs := target_dir_path :: fs.dirs }).removeFile
            source_file_path).setFile
        (target_dir_path ++ "/" ++ basename source_file_path) d)

/-- The body of the per-file loop of `process_files`: extension gate, text
extraction with every exception caught (`continue`), empty-text guard,
categorization against `PREDEFINED_CATEGORIES`, and the guarded
create-subdirectory / move step whose exceptions are also caught. -/
def process_one (fs : FS) (target_dir file_path : String) : FS :=
  if extLower file_path ∉ ALL_SUPPORTED_EXTENSIONS then fs
  else
    match extract_text file_path (fs.lookupFile file_path) with
    | Except.error _ => fs
    | Except.ok none => fs
    | Except.ok (some text_content) =>
      if (pyStrip text_content).isEmpty then fs
      else
        match categorize_text text_content PREDEFINED_CATEGORIES with
        | none => fs
        | some category =>
          match create_target_subdir fs target_dir category with
          | Except.error _ => fs
          | Except.ok (fs1, target_category_dir) =>
            match move_file_to_directory fs1 file_path target_category_dir with
            | Except.error _ => fs1
            | Except.ok fs2 => fs2

/-- The per-file loop of `process_files` over the discovered file list (file
discovery itself is the out-of-scope collaborator `get_source_files`; its
result is the `files_to_process` parameter). -/
def process_files (fs : FS) (target_dir : String) (files_to_process : List String) : FS :=
  files_to_process.foldl (fun fs p => process_one fs target_dir p) fs

/-- The decision `process_one` makes for one file, as a function of that
file's data alone: `some c` when the file will be moved to category `c`,
`none` when it is left in place. -/
def stepCatData (fd : Option FileData) (p : String) : Option String :=
  if extLower p ∉ ALL_SUPPORTED_EXTENSIONS then none
  else
    match extract_text p fd with
    | Except.ok (some text) =>
      if (pyStrip text).isEmpty then none
      else categorize_text text PREDEFINED_CATEGORIES
    | _ => none

/-- `stepCatData` read off the filesystem. -/
def stepCat (fs : FS) (p : String) : Option String :=
  stepCatData (fs.lookupFile p) p

/-- The destination path of a move: `target_dir/<category>/<basename>`. -/
def destPath (target_dir category p : String) : String :=
  target_dir ++ "/" ++ category ++ "/" ++ basename p

/-- The destination `process_one` would move `p` to, if any. -/
def stepDest (fs : FS) (target_dir p : String) : Option String :=
  (stepCat fs p).map (fun c => destPath target_dir c p)

/-- The newline-separated lines of a text, as Python's `text.split("\n")`
produces them (the empty text has one line, the empty one). -/
def splitOnNl (t : List Nat) : List (List Nat) := t.splitOn 10

/-! ## Lemmas about the categorizer -/

/-- The inner loop of `categorize_text` returns exactly the first category
satisfying `specQualifies`. -/
theorem findSome?_eq_find?_qualify (lt : List Nat) (cats : List String) :
    cats.findSome? (fun category_name =>
      match lookupKeywords category_name with
      | some keywords =>
          if keywords.any (fun p => reSearch p lt) then some category_name else none
      | none => none)
    = cats.find? (specQualifies lt) := by
  induction cats with
  | nil => rfl
  | cons c rest ih =>
    rw [List.findSome?_cons, List.find?_cons]
    cases hk : lookupKeywords c with
    | none => simp only [specQualifies, hk]; exact ih
    | some pats =>
      cases ha : pats.any (fun p => reSearch p lt) with
      | true => simp only [specQualifies, hk, ha, if_true]
      | false => simp only [specQualifies, hk, ha, if_false]; exact ih

/-- `categorize_text` characterized: the empty/whitespace guard, then the
first qualifying category of the caller-supplied list. -/
theorem categorize_text_eq_find? (text : List Nat) (cats : List String) :
    categorize_text text cats =
      if text.isEmpty || (pyStrip text).isEmpty then none
      else cats.find? (specQualifies (pyLower text)) := by
  unfold categorize_text
  by_cases hg : (text.isEmpty || (pyStrip text).isEmpty) = true
  · rw [if_pos hg, if_pos hg]
  · rw [if_neg hg, if_neg hg]
    exact findSome?_eq_find?_qualify (pyLower text) cats

theorem dropWhile_nil_of_all {p : Nat → Bool} {l : List Nat}
    (h : l.all p = true) : l.dropWhile p = [] :=
  List.dropWhile_eq_nil_iff.mpr (List.all_eq_true.mp h)

/-- `text.strip()` is empty exactly when every character is whitespace. -/
theorem pyStrip_eq_nil_iff (t : List Nat) :
    pyStrip t = [] ↔ t.all isSpaceCp = true := by
  unfold pyStrip
  rw [List.reverse_eq_nil_iff, List.dropWhile_eq_nil_iff]
  constructor
  · intro h
    rw [List.all_eq_true]
    intro x hx
    have hx2 : x ∈ List.takeWhile isSpaceCp t ++ List.dropWhile isSpaceCp t := by
      rw [List.takeWhile_append_dropWhile]; exact hx
    rcases List.mem_append.mp hx2 with h1 | h1
    · exact List.mem_takeWhile_imp h1
    · exact h x (List.mem_reverse.mpr h1)
  · intro h x hx
    have hx' : x ∈ t.dropWhile isSpaceCp := List.mem_reverse.mp hx
    have hmem : x ∈ t := by
      rw [← List.takeWhile_append_dropWhile isSpaceCp t]
      exact List.mem_append.mpr (Or.inr hx')
    exact List.all_eq_true.mp h x hmem

theorem isSpaceCp_lowerCp (n : Nat) : isSpaceCp (lowerCp n) = isSpaceCp n := by
  unfold lowerCp isSpaceCp
  split
  · next h => exact decide_eq_decide.mpr (by omega)
  · rfl

theorem lowerCp_lowerCp (n : Nat) : lowerCp (lowerCp n) = lowerCp n := by
  unfold lowerCp
  by_cases h : 65 ≤ n ∧ n ≤ 90
  · rw [if_pos h, if_neg (by omega)]
  · rw [if_neg h, if_neg h]

theorem lowerCp_upperCp (n : Nat) : lowerCp (upperCp n) = lowerCp n := by
  unfold lowerCp upperCp
  by_cases h : 97 ≤ n ∧ n ≤ 122
  · rw [if_pos h, if_pos (by omega), if_neg (by omega)]
    omega
  · rw [if_neg h]

theorem pyLower_pyLower (t : List Nat) : pyLower (pyLower t) = pyLower t := by
  unfold pyLower
  rw [List.map_map]
  exact List.map_congr_left (fun n _ => lowerCp_lowerCp n)

theorem pyLower_upper (t : List Nat) : pyLower (t.map upperCp) = pyLower t := by
  unfold pyLower
  rw [List.map_map]
  exact List.map_congr_left (fun n _ => lowerCp_upperCp n)

/-- The empty/whitespace guard of `categorize_text` is invariant under
lowercasing: two texts with the same lowercasing trigger it identically. -/
theorem guard_congr {s t : List Nat} (h : pyLower s = pyLower t) :
    (s.isEmpty || (pyStrip s).isEmpty) = (t.isEmpty || (pyStrip t).isEmpty) := by
  have hlen : s.length = t.length := by
    have := congrArg List.length h
    simpa [pyLower] using this
  have hall : ∀ u : List Nat, u.all isSpaceCp = (pyLower u).all isSpaceCp := by
    intro u
    unfold pyLower
    rw [List.all_map]
    have hfun : (isSpaceCp ∘ lowerCp) = isSpaceCp := funext fun n => isSpaceCp_lowerCp n
    rw [hfun]
  have hempty : s.isEmpty = t.isEmpty := by
    cases s <;> cases t <;> simp_all
  have hstrip : (pyStrip s).isEmpty = (pyStrip t).isEmpty := by
    rw [Bool.eq_iff_iff, List.isEmpty_iff, List.isEmpty_iff,
        pyStrip_eq_nil_iff, pyStrip_eq_nil_iff, hall s, hall t, h]
  rw [hempty, hstrip]

/-! ## Claim theorems: categorizer -/

/-- C1: `categorize_text` returns the first category, in the caller-supplied
order, that has an entry in the keyword table and one of whose patterns matches
the lowercased text; categories without a table entry are skipped and never
returned; if no qualifying category matches the result is `none`; and whenever
a qualifying category is preceded only by non-qualifying names, it is the one
returned, for any ordering of the list. -/
theorem categorize_text_first_match :
    (∀ (text : List Nat) (cats : List String),
      categorize_text text cats =
        if text.isEmpty || (pyStrip text).isEmpty then none
        else cats.find? (specQualifies (pyLower text)))
    ∧ (∀ (text : List Nat) (l₁ l₂ : List String) (c : String),
        (text.isEmpty || (pyStrip text).isEmpty) = false →
        specQualifies (pyLower text) c = true →
        (∀ c' ∈ l₁, specQualifies (pyLower text) c' = false) →
        categorize_text text (l₁ ++ c :: l₂) = some c)
    ∧ (∀ (text : List Nat) (cats : List String) (c : String),
        lookupKeywords c = none → categorize_text text cats ≠ some c) := by
  refine ⟨categorize_text_eq_find?, ?_, ?_⟩
  · intro text l₁ l₂ c hg hc hl
    rw [categorize_text_eq_find?, hg]
    simp only [Bool.false_eq_true, if_false, List.find?_append]
    have h1 : l₁.find? (specQualifies (pyLower text)) = none :=
      List.find?_eq_none.mpr (by intro x hx; rw [hl x hx]; simp)
    rw [h1, List.find?_cons, hc]
    rfl
  · intro text cats c hk h
    rw [categorize_text_eq_find?] at h
    by_cases hg : (text.isEmpty || (pyStrip text).isEmpty) = true
    · rw [if_pos hg] at h; cases h
    · rw [if_neg hg] at h
      have := List.find?_some h
      rw [specQualifies, hk] at this
      cases this

/-- C1 witness: on the text "thesis slides", with the non-qualifying category
"Reports" placed first, the first qualifying category "Presentations" wins. -/
theorem categorize_text_first_match_witness :
    ((kw "thesis slides").isEmpty || (pyStrip (kw "thesis slides")).isEmpty) = false
    ∧ specQualifies (pyLower (kw "thesis slides")) "Presentations" = true
    ∧ categorize_text (kw "thesis slides") (["Reports"] ++ "Presentations" :: ["Tests & Quizzes"])
        = some "Presentations" :=
  ⟨by decide, by decide,
    categorize_text_first_match.2.1 (kw "thesis slides") ["Reports"] ["Tests & Quizzes"]
      "Presentations" (by decide) (by decide) (by decide)⟩

/-- C4: on empty or all-whitespace text, `categorize_text` returns `none` for
every category list. -/
theorem categorize_text_empty_guard :
    ∀ (text : List Nat) (cats : List String),
      text.all isSpaceCp = true → categorize_text text cats = none := by
  intro text cats h
  rw [categorize_text_eq_find?]
  have : pyStrip text = [] := (pyStrip_eq_nil_iff text).mpr h
  rw [this]
  simp

/-- C4 witness: the empty text and a three-space text are never categorized. -/
theorem categorize_text_empty_guard_witness :
    (kw "").all isSpaceCp = true ∧ (kw "   ").all isSpaceCp = true
    ∧ categorize_text (kw "") PREDEFINED_CATEGORIES = none
    ∧ categorize_text (kw "   ") PREDEFINED_CATEGORIES = none :=
  ⟨by decide, by decide,
    categorize_text_empty_guard (kw "") PREDEFINED_CATEGORIES (by decide),
    categorize_text_empty_guard (kw "   ") PREDEFINED_CATEGORIES (by decide)⟩

/-- C9: categorization is case-insensitive in the text: texts with equal
lowercasings categorize identically; in particular the fully lowercased and
fully uppercased variants of a text give the same result as the text. -/
theorem categorize_text_case_insensitive :
    ∀ (s : List Nat) (cats : List String),
      (∀ t : List Nat, pyLower s = pyLower t →
        categorize_text s cats = categorize_text t cats)
      ∧ categorize_text (pyLower s) cats = categorize_text s cats
      ∧ categorize_text (s.map upperCp) cats = categorize_text s cats := by
  have main : ∀ (s t : List Nat) (cats : List String), pyLower s = pyLower t →
      categorize_text s cats = categorize_text t cats := by
    intro s t cats h
    rw [categorize_text_eq_find?, categorize_text_eq_find?, guard_congr h, h]
  intro s cats
  exact ⟨fun t h => main s t cats h,
    main (pyLower s) s cats (pyLower_pyLower s),
    main (s.map upperCp) s cats (pyLower_upper s)⟩

/-- C9 witness: "THESIS" and "Thesis" categorize identically. -/
theorem categorize_text_case_insensitive_witness :
    pyLower (kw "THESIS") = pyLower (kw "Thesis")
    ∧ categorize_text (kw "THESIS") PREDEFINED_CATEGORIES
        = categorize_text (kw "Thesis") PREDEFINED_CATEGORIES :=
  ⟨by decide,
    (categorize_text_case_insensitive (kw "THESIS") PREDEFINED_CATEGORIES).1
      (kw "Thesis") (by decide)⟩

/-- C10: a non-`none` result of `categorize_text` is an element of the
caller-supplied list that is also a key of the keyword table; consequently with
the orchestrator's argument `PREDEFINED_CATEGORIES` every destination
subdirectory name is one of the ten predefined category names. -/
theorem categorize_text_result_membership :
    ∀ (text : List Nat) (cats : List String) (c : String),
      categorize_text text cats = some c →
      c ∈ cats ∧ (lookupKeywords c).isSome = true
      ∧ (cats = PREDEFINED_CATEGORIES → c ∈ PREDEFINED_CATEGORIES) := by
  intro text cats c h
  rw [categorize_text_eq_find?] at h
  by_cases hg : (text.isEmpty || (pyStrip text).isEmpty) = true
  · rw [if_pos hg] at h; cases h
  · rw [if_neg hg] at h
    have hmem : c ∈ cats := List.mem_of_find?_eq_some h
    have hq := List.find?_some h
    refine ⟨hmem, ?_, fun hc => hc ▸ hmem⟩
    rw [specQualifies] at hq
    cases hk : lookupKeywords c with
    | none => rw [hk] at hq; cases hq
    | some pats => rfl

/-- C10 witness: the text "a thesis" is assigned "Theses & Dissertations",
which is in the caller list and in the keyword table. -/
theorem categorize_text_result_membership_witness :
    categorize_text (kw "a thesis") PREDEFINED_CATEGORIES = some "Theses & Dissertations"
    ∧ "Theses & Dissertations" ∈ PREDEFINED_CATEGORIES
    ∧ (lookupKeywords "Theses & Dissertations").isSome = true :=
  ⟨by decide,
    (categorize_text_result_membership (kw "a thesis") PREDEFINED_CATEGORIES
      "Theses & Dissertations" (by decide)).1,
    (categorize_text_result_membership (kw "a thesis") PREDEFINED_CATEGORIES
      "Theses & Dissertations" (by decide)).2.1⟩

/-! ## Lemmas about the extractor -/

theorem mem_ALL_iff (e : String) :
    e ∈ ALL_SUPPORTED_EXTENSIONS ↔
      e ∈ DOC_EXTENSIONS ∨ e ∈ PDF_EXTENSIONS ∨ e ∈ EXCEL_EXTENSIONS
        ∨ e ∈ POWERPOINT_EXTENSIONS := by
  unfold ALL_SUPPORTED_EXTENSIONS
  simp [List.mem_append, or_assoc]

/-! ## Claim theorems: extractor dispatch (C3) -/

/-- C3: for a file that exists, `extract_text` returns `None` exactly when the
lowercased extension is outside the four supported groups or is the legacy
".doc" extension; this is a normal return (not an error), and for ".doc" the
result does not depend on the file contents — no parse is attempted. -/
theorem extract_text_none_iff :
    ∀ (path : String) (d : FileData),
      (extract_text path (some d) = Except.ok none ↔
        (extLower path ∉ ALL_SUPPORTED_EXTENSIONS ∨ extLower path = ".doc"))
      ∧ (extLower path = ".doc" →
          ∀ d' : FileData, extract_text path (some d') = Except.ok none) := by
  intro path d
  constructor
  · by_cases h1 : extLower path ∈ DOC_EXTENSIONS
    · by_cases h2 : extLower path = ".doc"
      · simp only [extract_text, if_pos h1, if_pos h2]
        simp [h2]
      · have hin : extLower path ∈ ALL_SUPPORTED_EXTENSIONS :=
          (mem_ALL_iff _).mpr (Or.inl h1)
        simp only [extract_text, if_pos h1, if_neg h2]
        cases hp : d.docxParas with
        | ok paras =>
          simp only [extract_text_from_docx, hp]
          simp [hin, h2]
        | error e =>
          simp only [extract_text_from_docx, hp]
          simp [hin, h2]
    · by_cases h3 : extLower path ∈ PDF_EXTENSIONS
      · have hin : extLower path ∈ ALL_SUPPORTED_EXTENSIONS :=
          (mem_ALL_iff _).mpr (Or.inr (Or.inl h3))
        have h2 : extLower path ≠ ".doc" := by
          intro hc; rw [hc] at h1; exact h1 (by decide)
        simp only [extract_text, if_neg h1, if_pos h3]
        cases hp : d.pdfPages with
        | ok pages =>
          simp only [extract_text_from_pdf, hp]
          simp [hin, h2]
        | error e =>
          simp only [extract_text_from_pdf, hp]
          simp [hin, h2]
      · by_cases h4 : extLower path ∈ EXCEL_EXTENSIONS
        · have hin : extLower path ∈ ALL_SUPPORTED_EXTENSIONS :=
            (mem_ALL_iff _).mpr (Or.inr (Or.inr (Or.inl h4)))
          have h2 : extLower path ≠ ".doc" := by
            intro hc; rw [hc] at h1; exact h1 (by decide)
          simp only [extract_text, if_neg h1, if_neg h3, if_pos h4]
          cases hp : d.excelSheets with
          | ok sheets =>
            simp only [extract_text_from_excel, hp]
            simp [hin, h2]
          | error e =>
            simp only [extract_text_from_excel, hp]
            simp [hin, h2]
        · by_cases h5 : extLower path ∈ POWERPOINT_EXTENSIONS
          · have hin : extLower path ∈ ALL_SUPPORTED_EXTENSIONS :=
              (mem_ALL_iff _).mpr (Or.inr (Or.inr (Or.inr h5)))
            have h2 : extLower path ≠ ".doc" := by
              intro hc; rw [hc] at h1; exact h1 (by decide)
            simp only [extract_text, if_neg h1, if_neg h3, if_neg h4, if_pos h5]
            cases hp : d.pptxSlides with
            | ok slides =>
              simp only [extract_text_from_pptx, hp]
              simp [hin, h2]
            | error e =>
              simp only [extract_text_from_pptx, hp]
              simp [hin, h2]
          · have hout : extLower path ∉ ALL_SUPPORTED_EXTENSIONS := by
              intro hc
              rcases (mem_ALL_iff _).mp hc with h | h | h | h
              · exact h1 h
              · exact h3 h
              · exact h4 h
              · exact h5 h
            simp only [extract_text, if_neg h1, if_neg h3, if_neg h4, if_neg h5,
              if_pos hout]
            simp [hout]
  · intro h2 d'
    have h1 : extLower path ∈ DOC_EXTENSIONS := by rw [h2]; decide
    simp only [extract_text, if_pos h1, if_pos h2]

/-- C3 witness: a legacy ".doc" file whose contents would even fail to parse
is declined with a plain `None`, and an unsupported ".txt" file also yields
`None`. -/
theorem extract_text_none_iff_witness :
    extLower "dir/old.doc" = ".doc"
    ∧ extract_text "dir/old.doc"
        (some { blankData with docxParas := Except.error "not a zip" })
        = Except.ok none
    ∧ (extLower "dir/notes.txt" ∉ ALL_SUPPORTED_EXTENSIONS ∨ extLower "dir/notes.txt" = ".doc")
    ∧ extract_text "dir/notes.txt" (some blankData) = Except.ok none :=
  ⟨by decide,
    (extract_text_none_iff "dir/old.doc"
      { blankData with docxParas := Except.error "not a zip" }).2 (by decide)
      { blankData with docxParas := Except.error "not a zip" },
    by decide,
    ((extract_text_none_iff "dir/notes.txt" blankData).1).mpr (by decide)⟩

/-! ## Claim theorems: extractor error wrapping (C5) -/

theorem docx_error_shape (path : String) (d : FileData) (e : PyExc)
    (h : extract_text_from_docx path d = Except.error e) :
    ∃ m, e = PyExc.textExtractionError m := by
  unfold extract_text_from_docx at h
  cases hp : d.docxParas with
  | ok paras => rw [hp] at h; cases h
  | error c => rw [hp] at h; injection h with h2; exact ⟨_, h2.symm⟩

theorem pdf_error_shape (path : String) (d : FileData) (e : PyExc)
    (h : extract_text_from_pdf path d = Except.error e) :
    ∃ m, e = PyExc.textExtractionError m := by
  unfold extract_text_from_pdf at h
  cases hp : d.pdfPages with
  | ok pages => rw [hp] at h; cases h
  | error c => rw [hp] at h; injection h with h2; exact ⟨_, h2.symm⟩

theorem excel_error_shape (path : String) (d : FileData) (e : PyExc)
    (h : extract_text_from_excel path d = Except.error e) :
    ∃ m, e = PyExc.textExtractionError m := by
  unfold extract_text_from_excel at h
  cases hp : d.excelSheets with
  | ok sheets => rw [hp] at h; cases h
  | error c => rw [hp] at h; injection h with h2; exact ⟨_, h2.symm⟩

theorem pptx_error_shape (path : String) (d : FileData) (e : PyExc)
    (h : extract_text_from_pptx path d = Except.error e) :
    ∃ m, e = PyExc.textExtractionError m := by
  unfold extract_text_from_pptx at h
  cases hp : d.pptxSlides with
  | ok slides => rw [hp] at h; cases h
  | error c => rw [hp] at h; injection h with h2; exact ⟨_, h2.symm⟩

/-- Every error `extract_text` produces on an existing file is a
`TextExtractionError`. -/
theorem extract_text_error_shape (path : String) (d : FileData) (e : PyExc)
    (h : extract_text path (some d) = Except.error e) :
    ∃ m, e = PyExc.textExtractionError m := by
  simp only [extract_text] at h
  split at h
  · split at h
    · cases h
    · split at h
      · cases h
      · next heq => exact docx_error_shape path d e (by rw [heq]; injection h with h2; rw [h2])
  · split at h
    · split at h
      · cases h
      · next heq => exact pdf_error_shape path d e (by rw [heq]; injection h with h2; rw [h2])
    · split at h
      · split at h
        · cases h
        · next heq => exact excel_error_shape path d e (by rw [heq]; injection h with h2; rw [h2])
      · split at h
        · split at h
          · cases h
          · next heq => exact pptx_error_shape path d e (by rw [heq]; injection h with h2; rw [h2])
        · split at h
          · cases h
          · cases h

/-- C5: a failure of the underlying parser for a supported extension is caught
and re-raised as the single typed `TextExtractionError` whose message carries
the path and the original cause; `extract_text` never propagates a raw
library exception. -/
theorem extract_text_wraps_parser_errors :
    (∀ (path : String) (d : FileData) (e : PyExc),
        extract_text path (some d) = Except.error e →
        ∃ m, e = PyExc.textExtractionError m)
    ∧ (∀ (path : String) (fd : Option FileData) (m : String),
        extract_text path fd ≠ Except.error (PyExc.other m))
    ∧ (∀ (path : String) (d : FileData) (cause : String),
        extLower path ∈ DOC_EXTENSIONS → extLower path ≠ ".doc" →
        d.docxParas = Except.error cause →
        extract_text path (some d)
          = Except.error (PyExc.textExtractionError (teeMsg "DOCX" path cause)))
    ∧ (∀ (path : String) (d : FileData) (cause : String),
        extLower path ∈ PDF_EXTENSIONS → d.pdfPages = Except.error cause →
        extract_text path (some d)
          = Except.error (PyExc.textExtractionError (teeMsg "PDF" path cause)))
    ∧ (∀ (path : String) (d : FileData) (cause : String),
        extLower path ∈ EXCEL_EXTENSIONS → d.excelSheets = Except.error cause →
        extract_text path (some d)
          = Except.error (PyExc.textExtractionError (teeMsg "Excel" path cause)))
    ∧ (∀ (path : String) (d : FileData) (cause : String),
        extLower path ∈ POWERPOINT_EXTENSIONS → d.pptxSlides = Except.error cause →
        extract_text path (some d)
          = Except.error (PyExc.textExtractionError (teeMsg "PowerPoint" path cause)))
    ∧ (∀ (fmt path cause : String),
        (∃ pre post, teeMsg fmt path cause = pre ++ path ++ post)
        ∧ (∃ pre, teeMsg fmt path cause = pre ++ cause)) := by
  refine ⟨extract_text_error_shape, ?_, ?_, ?_, ?_, ?_, ?_⟩
  · intro path fd m hc
    cases fd with
    | none =>
      simp only [extract_text] at hc
      cases hc
    | some d =>
      rcases extract_text_error_shape path d (PyExc.other m) hc with ⟨m', hm'⟩
      cases hm'
  · intro path d cause h1 h2 hc
    simp only [extract_text, if_pos h1, if_neg h2, extract_text_from_docx, hc]
  · intro path d cause h3 hc
    have h1 : extLower path ∉ DOC_EXTENSIONS := by
      have he : extLower path = ".pdf" := by simpa [PDF_EXTENSIONS] using h3
      rw [he]; decide
    simp only [extract_text, if_neg h1, if_pos h3, extract_text_from_pdf, hc]
  · intro path d cause h4 hc
    have hcases : extLower path = ".xls" ∨ extLower path = ".xlsx" := by
      simpa [EXCEL_EXTENSIONS] using h4
    have h1 : extLower path ∉ DOC_EXTENSIONS := by
      rcases hcases with he | he <;> rw [he] <;> decide
    have h3 : extLower path ∉ PDF_EXTENSIONS := by
      rcases hcases with he | he <;> rw [he] <;> decide
    simp only [extract_text, if_neg h1, if_neg h3, if_pos h4, extract_text_from_excel, hc]
  · intro path d cause h5 hc
    have hcases : extLower path = ".ppt" ∨ extLower path = ".pptx" := by
      simpa [POWERPOINT_EXTENSIONS] using h5
    have h1 : extLower path ∉ DOC_EXTENSIONS := by
      rcases hcases with he | he <;> rw [he] <;> decide
    have h3 : extLower path ∉ PDF_EXTENSIONS := by
      rcases hcases with he | he <;> rw [he] <;> decide
    have h4 : extLower path ∉ EXCEL_EXTENSIONS := by
      rcases hcases with he | he <;> rw [he] <;> decide
    simp only [extract_text, if_neg h1, if_neg h3, if_neg h4, if_pos h5,
      extract_text_from_pptx, hc]
  · intro fmt path cause
    constructor
    · refine ⟨"Failed to extract text from " ++ fmt ++ " ", ": " ++ cause, ?_⟩
      simp [teeMsg, String.append_assoc]
    · exact ⟨"Failed to extract text from " ++ fmt ++ " " ++ path ++ ": ", rfl⟩

/-- C5 witness: a corrupt ".docx" file whose parser raises "boom" surfaces as
a `TextExtractionError` mentioning the path and the cause. -/
theorem extract_text_wraps_parser_errors_witness :
    extLower "a/b.docx" ∈ DOC_EXTENSIONS
    ∧ extract_text "a/b.docx" (some { blankData with docxParas := Except.error "boom" })
        = Except.error (PyExc.textExtractionError (teeMsg "DOCX" "a/b.docx" "boom"))
    ∧ (∃ pre post, teeMsg "DOCX" "a/b.docx" "boom" = pre ++ "a/b.docx" ++ post)
    ∧ (∃ pre, teeMsg "DOCX" "a/b.docx" "boom" = pre ++ "boom") :=
  ⟨by decide,
    extract_text_wraps_parser_errors.2.2.1 "a/b.docx"
      { blankData with docxParas := Except.error "boom" } "boom"
      (by decide) (by decide) rfl,
    (extract_text_wraps_parser_errors.2.2.2.2.2.2 "DOCX" "a/b.docx" "boom").1,
    (extract_text_wraps_parser_errors.2.2.2.2.2.2 "DOCX" "a/b.docx" "boom").2⟩

/-! ## Claim theorems: PDF page/line structure (C7) -/

/-- A one-page PDF whose page text itself contains a newline. -/
def pdfCounterexampleData : FileData :=
  { blankData with pdfPages := Except.ok [some (kw "a\nb")] }

/-- C7 counterexample: for a successfully extracted one-page PDF whose page
text contains a newline, the extracted text has two newline-separated lines,
not one line per page. -/
theorem pdf_line_count_counterexample :
    extract_text_from_pdf "doc.pdf" pdfCounterexampleData = Except.ok (kw "a\nb")
    ∧ ¬ ((splitOnNl (kw "a\nb")).length
          = ([some (kw "a\nb")] : List (Option (List Nat))).length) := by
  constructor
  · decide
  · decide

/-- C7 (amended): for every PDF document with at least one page whose
extraction succeeds and whose per-page texts contain no newline character, the
newline-separated lines of the extracted text are exactly the per-page texts
in page order — a page yielding no extractable text contributes an empty
line — and hence the line count equals the page count. -/
theorem pdf_lines_match_pages :
    ∀ (path : String) (d : FileData) (pages : List (Option (List Nat))),
      d.pdfPages = Except.ok pages → pages ≠ [] →
      (∀ p ∈ pages, 10 ∉ p.getD []) →
      extract_text_from_pdf path d
        = Except.ok (List.intercalate [10] (pages.map (fun p => p.getD [])))
      ∧ splitOnNl (List.intercalate [10] (pages.map (fun p => p.getD [])))
          = pages.map (fun p => p.getD [])
      ∧ (splitOnNl (List.intercalate [10] (pages.map (fun p => p.getD [])))).length
          = pages.length := by
  intro path d pages hp hne hnl
  have hmapne : pages.map (fun p => p.getD []) ≠ [] := by
    cases pages with
    | nil => exact absurd rfl hne
    | cons a l => simp
  have hmem : ∀ x ∈ pages.map (fun p => p.getD []), 10 ∉ x := by
    intro x hx
    rcases List.mem_map.mp hx with ⟨p, hpm, rfl⟩
    exact hnl p hpm
  have hsplit0 : (List.intercalate [10] (pages.map (fun p => p.getD []))).splitOn 10
      = pages.map (fun p => p.getD []) :=
    List.splitOn_intercalate (pages.map (fun p => p.getD [])) 10 hmem hmapne
  have hsplit : splitOnNl (List.intercalate [10] (pages.map (fun p => p.getD [])))
      = pages.map (fun p => p.getD []) := hsplit0
  refine ⟨?_, hsplit, ?_⟩
  · unfold extract_text_from_pdf
    rw [hp]
  · rw [hsplit, List.length_map]

/-- C7 witness for the amended claim: a two-page PDF, the second page without
extractable text, yields two lines, the second empty. -/
theorem pdf_lines_match_pages_witness :
    ({ blankData with pdfPages := Except.ok [some (kw "page one"), none] }
        : FileData).pdfPages = Except.ok [some (kw "page one"), none]
    ∧ splitOnNl (List.intercalate [10]
        (([some (kw "page one"), none] : List (Option (List Nat))).map (fun p => p.getD [])))
        = [kw "page one", []]
    ∧ (splitOnNl (List.intercalate [10]
        (([some (kw "page one"), none] : List (Option (List Nat))).map (fun p => p.getD [])))).length
        = 2 :=
  ⟨rfl,
    ((pdf_lines_match_pages "x.pdf"
        { blankData with pdfPages := Except.ok [some (kw "page one"), none] }
        [some (kw "page one"), none] rfl (by decide) (by decide)).2.1).trans (by decide),
    (pdf_lines_match_pages "x.pdf"
        { blankData with pdfPages := Except.ok [some (kw "page one"), none] }
        [some (kw "page one"), none] rfl (by decide) (by decide)).2.2⟩

/-! ## Claim theorems: spreadsheet cell lines (C8) -/

theorem cell_foldl_eq (row : List (Option (List Nat))) :
    ∀ acc : List (List Nat),
      row.foldl (fun acc cell =>
        match cell with
        | some v => acc ++ [v]
        | none => acc) acc
      = acc ++ row.filterMap id := by
  induction row with
  | nil => intro acc; simp
  | cons c rest ih =>
    intro acc
    cases c with
    | none => simp [List.foldl_cons, ih, List.filterMap_cons]
    | some v => simp [List.foldl_cons, ih, List.filterMap_cons]

theorem row_foldl_eq (sheet : List (List (Option (List Nat)))) :
    ∀ acc : List (List Nat),
      sheet.foldl (fun acc row =>
        row.foldl (fun acc cell =>
          match cell with
          | some v => acc ++ [v]
          | none => acc) acc) acc
      = acc ++ (sheet.map (fun row => row.filterMap id)).flatten := by
  induction sheet with
  | nil => intro acc; simp
  | cons r rest ih =>
    intro acc
    rw [List.foldl_cons, cell_foldl_eq, ih, List.map_cons, List.flatten_cons,
      List.append_assoc]

theorem sheet_foldl_eq (sheets : List (List (List (Option (List Nat))))) :
    ∀ acc : List (List Nat),
      sheets.foldl (fun acc sheet =>
        sheet.foldl (fun acc row =>
          row.foldl (fun acc cell =>
            match cell with
            | some v => acc ++ [v]
            | none => acc) acc) acc) acc
      = acc ++ (sheets.map (fun sheet =>
          (sheet.map (fun row => row.filterMap id)).flatten)).flatten := by
  induction sheets with
  | nil => intro acc; simp
  | cons sh rest ih =>
    intro acc
    rw [List.foldl_cons, row_foldl_eq, ih, List.map_cons, List.flatten_cons,
      List.append_assoc]

theorem excelCellLines_eq (sheets : List (List (List (Option (List Nat))))) :
    excelCellLines sheets
      = (sheets.map (fun sheet =>
          (sheet.map (fun row => row.filterMap id)).flatten)).flatten := by
  unfold excelCellLines
  rw [sheet_foldl_eq]
  simp

/-- C8: for a spreadsheet whose extraction succeeds, the collected lines are
exactly the non-empty cells' values — one line per cell, not grouped by row —
visiting sheets in workbook order and rows in row order, and the extracted
text is their newline-separated concatenation. -/
theorem excel_extraction_cell_lines :
    ∀ (path : String) (d : FileData) (sheets : List (List (List (Option (List Nat))))),
      excelCellLines sheets
        = (sheets.map (fun sheet =>
            (sheet.map (fun row => row.filterMap id)).flatten)).flatten
      ∧ (d.excelSheets = Except.ok sheets →
          extract_text_from_excel path d
            = Except.ok (List.intercalate [10]
                ((sheets.map (fun sheet =>
                  (sheet.map (fun row => row.filterMap id)).flatten)).flatten))) := by
  intro path d sheets
  refine ⟨excelCellLines_eq sheets, ?_⟩
  intro h
  simp only [extract_text_from_excel, h, excelCellLines_eq]

/-- The workbook used in the C8 witness: two sheets, an empty cell, and a row
boundary between non-empty cells. -/
def excelWitnessSheets : List (List (List (Option (List Nat)))) :=
  [[[some (kw "a"), none], [some (kw "b")]], [[some (kw "c")]]]

/-- File data for the C8 witness workbook. -/
def excelWitnessData : FileData :=
  { blankData with excelSheets := Except.ok excelWitnessSheets }

/-- C8 witness: the witness workbook yields one line per non-empty cell,
across row and sheet boundaries. -/
theorem excel_extraction_cell_lines_witness :
    excelWitnessData.excelSheets = Except.ok excelWitnessSheets
    ∧ extract_text_from_excel "wb.xlsx" excelWitnessData = Except.ok (kw "a\nb\nc") :=
  ⟨rfl,
    ((excel_extraction_cell_lines "wb.xlsx" excelWitnessData excelWitnessSheets).2 rfl).trans
      (by decide)⟩

/-! ## Lemmas about the filesystem model -/

theorem find?_filter_ne (l : List (String × FileData)) (p q : String) (h : q ≠ p) :
    (l.filter (fun e => !(e.1 == p))).find? (fun e => e.1 == q)
      = l.find? (fun e => e.1 == q) := by
  induction l with
  | nil => rfl
  | cons e rest ih =>
    by_cases hep : e.1 = p
    · have h1 : (!(e.1 == p)) = false := by simp [hep]
      have h2 : (e.1 == q) = false := by simp [hep]; exact fun hc => h hc.symm
      rw [List.filter_cons, h1, List.find?_cons, h2]
      exact ih
    · have h1 : (!(e.1 == p)) = true := by simp [hep]
      rw [List.filter_cons, h1]
      simp only [List.find?_cons]
      cases hq : (e.1 == q)
      · simpa [hq] using ih
      · simp [hq]

theorem lookup_setFile_self (fs : FS) (p : String) (d : FileData) :
    (fs.setFile p d).lookupFile p = some d := by
  simp [FS.setFile, FS.lookupFile, List.find?_cons]

theorem lookup_setFile_ne (fs : FS) (p q : String) (d : FileData) (h : q ≠ p) :
    (fs.setFile p d).lookupFile q = fs.lookupFile q := by
  have h2 : (p == q) = false := by simp; exact fun hc => h hc.symm
  simp only [FS.setFile, FS.lookupFile, List.find?_cons, h2]
  rw [find?_filter_ne fs.files p q h]

theorem lookup_removeFile_self (fs : FS) (p : String) :
    (fs.removeFile p).lookupFile p = none := by
  simp only [FS.removeFile, FS.lookupFile]
  rw [List.find?_eq_none.mpr]
  · rfl
  · intro e he
    have := (List.mem_filter.mp he).2
    simp at this ⊢
    exact this

theorem lookup_removeFile_ne (fs : FS) (p q : String) (h : q ≠ p) :
    (fs.removeFile p).lookupFile q = fs.lookupFile q := by
  simp only [FS.removeFile, FS.lookupFile]
  rw [find?_filter_ne fs.files p q h]

/-- `create_target_subdir` always succeeds, returns `target/name`, and does not
touch the file table. -/
theorem create_target_subdir_ok (fs : FS) (t n : String) :
    ∃ fs1 : FS, create_target_subdir fs t n = Except.ok (fs1, t ++ "/" ++ n)
      ∧ fs1.files = fs.files ∧ (t ++ "/" ++ n) ∈ fs1.dirs := by
  unfold create_target_subdir FS.mkdir
  by_cases h : (t ++ "/" ++ n) ∈ fs.dirs
  · rw [if_pos h, if_pos rfl]
    exact ⟨fs, rfl, rfl, h⟩
  · rw [if_neg h]
    exact ⟨{ fs with dirs := (t ++ "/" ++ n) :: fs.dirs }, rfl, rfl, List.mem_cons_self _ _⟩

/-! ## Claim theorems: directory creation and relocation (C6) -/

/-- C6: creating a category subdirectory is idempotent — a second call with
the same target and name returns the same path, changes nothing, and raises no
error — and moving a matched file relocates it to
`targetRoot/<Category>/<original filename>`, preserving the original
filename. -/
theorem create_subdir_idempotent_and_move_preserves_filename :
    ∀ (fs : FS) (target_dir subdir_name : String),
      (∃ fs1 : FS,
        create_target_subdir fs target_dir subdir_name
          = Except.ok (fs1, target_dir ++ "/" ++ subdir_name)
        ∧ create_target_subdir fs1 target_dir subdir_name
          = Except.ok (fs1, target_dir ++ "/" ++ subdir_name))
      ∧ (∀ (src : String) (d : FileData) (category : String),
          fs.lookupFile src = some d →
          ∃ (fs1 fs2 : FS),
            create_target_subdir fs target_dir category
              = Except.ok (fs1, target_dir ++ "/" ++ category)
            ∧ move_file_to_directory fs1 src (target_dir ++ "/" ++ category)
              = Except.ok fs2
            ∧ fs2.lookupFile (destPath target_dir category src) = some d) := by
  intro fs target_dir subdir_name
  constructor
  · rcases create_target_subdir_ok fs target_dir subdir_name with ⟨fs1, h1, hfiles, hdir⟩
    refine ⟨fs1, h1, ?_⟩
    unfold create_target_subdir FS.mkdir
    rw [if_pos hdir, if_pos rfl]
  · intro src d category hsrc
    rcases create_target_subdir_ok fs target_dir category with ⟨fs1, h1, hfiles, hdir⟩
    have hlook1 : fs1.lookupFile src = some d := by
      unfold FS.lookupFile
      rw [hfiles]
      exact hsrc
    refine ⟨fs1,
      (fs1.removeFile src).setFile (destPath target_dir category src) d,
      h1, ?_, ?_⟩
    · simp only [move_file_to_directory, hlook1, if_pos hdir]
      rfl
    · exact lookup_setFile_self _ _ _

/-- C6 witness: on a filesystem with one file, the subdirectory is created
idempotently and the moved file keeps its original filename under
`target/Reports`. -/
theorem create_subdir_idempotent_witness :
    ({ dirs := ["tgt"], files := [("s/a.docx", blankData)] } : FS).lookupFile "s/a.docx"
      = some blankData
    ∧ (∃ fs1 : FS,
        create_target_subdir { dirs := ["tgt"], files := [("s/a.docx", blankData)] }
            "tgt" "Reports"
          = Except.ok (fs1, "tgt" ++ "/" ++ "Reports")
        ∧ create_target_subdir fs1 "tgt" "Reports"
          = Except.ok (fs1, "tgt" ++ "/" ++ "Reports"))
    ∧ (∃ (fs1 fs2 : FS),
        create_target_subdir { dirs := ["tgt"], files := [("s/a.docx", blankData)] }
            "tgt" "Reports"
          = Except.ok (fs1, "tgt" ++ "/" ++ "Reports")
        ∧ move_file_to_directory fs1 "s/a.docx" ("tgt" ++ "/" ++ "Reports")
          = Except.ok fs2
        ∧ fs2.lookupFile (destPath "tgt" "Reports" "s/a.docx") = some blankData) :=
  ⟨by decide,
    (create_subdir_idempotent_and_move_preserves_filename
      { dirs := ["tgt"], files := [("s/a.docx", blankData)] } "tgt" "Reports").1,
    (create_subdir_idempotent_and_move_preserves_filename
      { dirs := ["tgt"], files := [("s/a.docx", blankData)] } "tgt" "Reports").2
      "s/a.docx" blankData "Reports" (by decide)⟩

/-! ## Lemmas about the orchestrator loop -/

theorem stepCat_congr (fs fs' : FS) (p : String)
    (h : fs'.lookupFile p = fs.lookupFile p) : stepCat fs' p = stepCat fs p := by
  unfold stepCat
  rw [h]

/-- A file `stepCat` decides to skip is left exactly in place: the whole
filesystem is unchanged. -/
theorem process_one_eq_of_stepCat_none (fs : FS) (t p : String)
    (h : stepCat fs p = none) : process_one fs t p = fs := by
  unfold stepCat stepCatData at h
  unfold process_one
  by_cases h1 : extLower p ∉ ALL_SUPPORTED_EXTENSIONS
  · rw [if_pos h1]
  · rw [if_neg h1] at h ⊢
    split
    · rfl
    · rfl
    · next text heq =>
      simp only [heq] at h
      by_cases hs : (pyStrip text).isEmpty = true
      · rw [if_pos hs]
      · rw [if_neg hs] at h ⊢
        cases hc : categorize_text text PREDEFINED_CATEGORIES with
        | none => rfl
        | some c => rw [hc] at h; cases h

theorem extract_ok_some_lookup (p : String) (fd : Option FileData) (text : List Nat)
    (h : extract_text p fd = Except.ok (some text)) : ∃ d, fd = some d := by
  cases fd with
  | none => simp [extract_text] at h
  | some d => exact ⟨d, rfl⟩

/-- A file `stepCat` decides to move to category `c` ends up at
`destPath`, keeping its data; its source entry is gone; every other path is
untouched. -/
theorem process_one_eq_of_stepCat_some (fs : FS) (t p c : String)
    (h : stepCat fs p = some c) :
    ∃ d, fs.lookupFile p = some d ∧
      ∀ x : String, (process_one fs t p).lookupFile x =
        if x = destPath t c p then some d
        else if x = p then none
        else fs.lookupFile x := by
  unfold stepCat stepCatData at h
  by_cases h1 : extLower p ∉ ALL_SUPPORTED_EXTENSIONS
  · rw [if_pos h1] at h; cases h
  · rw [if_neg h1] at h
    cases hx : extract_text p (fs.lookupFile p) with
    | error e => simp only [hx] at h; exact Option.noConfusion h
    | ok o =>
      cases o with
      | none => simp only [hx] at h; exact Option.noConfusion h
      | some text =>
        simp only [hx] at h
        by_cases hs : (pyStrip text).isEmpty = true
        · rw [if_pos hs] at h; cases h
        · rw [if_neg hs] at h
          rcases extract_ok_some_lookup p (fs.lookupFile p) text hx with ⟨d, hd⟩
          refine ⟨d, hd, ?_⟩
          intro x
          unfold process_one
          rw [if_neg h1]
          simp only [hx]
          rw [if_neg hs]
          simp only [h]
          rcases create_target_subdir_ok fs t c with ⟨fs1, hc1, hfiles, hdir⟩
          have hlook1 : fs1.lookupFile p = some d := by
            unfold FS.lookupFile
            rw [hfiles]
            exact hd
          simp only [hc1]
          simp only [move_file_to_directory, hlook1]
          rw [if_pos hdir]
          rw [show (t ++ "/" ++ c ++ "/" ++ basename p : String) = destPath t c p from rfl]
          by_cases hxd : x = destPath t c p
          · rw [if_pos hxd, hxd]
            exact lookup_setFile_self _ _ _
          · rw [if_neg hxd]
            rw [lookup_setFile_ne _ _ _ _ hxd]
            by_cases hxp : x = p
            · rw [if_pos hxp, hxp]
              exact lookup_removeFile_self fs1 p
            · rw [if_neg hxp, lookup_removeFile_ne fs1 p x hxp]
              unfold FS.lookupFile
              rw [hfiles]

theorem stepDest_some (fs : FS) (t p c : String) (h : stepCat fs p = some c) :
    stepDest fs t p = some (destPath t c p) := by
  unfold stepDest
  rw [h]
  rfl

theorem toList_append (a b : String) : (a ++ b).toList = a.toList ++ b.toList :=
  String.data_append a b

theorem isPrefixOf_append_list (l m : List Char) : l.isPrefixOf (l ++ m) = true :=
  List.isPrefixOf_iff_prefix.mpr (List.prefix_append l m)

/-- A path the target prefix does not start is never a destination path. -/
theorem not_target_ne_dest {t p : String}
    (h : ((t ++ "/").toList.isPrefixOf p.toList) = false) (c q : String) :
    p ≠ destPath t c q := by
  intro hc
  have hdp : destPath t c q = (t ++ "/") ++ (c ++ ("/" ++ basename q)) := by
    unfold destPath
    rw [String.append_assoc, String.append_assoc]
  have htrue : (t ++ "/").toList.isPrefixOf p.toList = true := by
    rw [hc, hdp, toList_append]
    exact isPrefixOf_append_list _ _
  rw [h] at htrue
  cases htrue

/-- A path the target prefix does not start is never where `process_one`
moves any file. -/
theorem stepDest_ne_of_not_target (fs0 : FS) (t : String) (v y : String)
    (hy : ((t ++ "/").toList.isPrefixOf y.toList) = false) :
    stepDest fs0 t v ≠ some y := by
  intro hvd
  cases hvc : stepCat fs0 v with
  | none => unfold stepDest at hvd; rw [hvc] at hvd; cases hvd
  | some cv =>
    rw [stepDest_some fs0 t v cv hvc] at hvd
    injection hvd with h2
    exact not_target_ne_dest hy cv v h2.symm

theorem process_one_lookup_frame (fs : FS) (t q x : String)
    (hxq : x ≠ q)
    (hxd : ∀ c, stepCat fs q = some c → x ≠ destPath t c q) :
    (process_one fs t q).lookupFile x = fs.lookupFile x := by
  cases h : stepCat fs q with
  | none => rw [process_one_eq_of_stepCat_none fs t q h]
  | some c =>
    rcases process_one_eq_of_stepCat_some fs t q c h with ⟨d, hd, hchar⟩
    rw [hchar x, if_neg (hxd c h), if_neg hxq]

theorem process_files_cons (fs : FS) (t p : String) (rest : List String) :
    process_files fs t (p :: rest) = process_files (process_one fs t p) t rest := rfl

/-- The per-file loop invariant: over a duplicate-free batch of source paths
that live outside the target tree and whose destinations do not collide,
every file left in place by its own step keeps its entry, every moved file
reaches its destination with its data and loses its source entry, and paths
that are neither sources nor destinations are untouched. -/
theorem process_files_aux (t : String) (fs0 : FS) :
    ∀ (files : List String) (fsc : FS),
      files.Nodup →
      (∀ p ∈ files, ((t ++ "/").toList.isPrefixOf p.toList) = false) →
      (∀ p ∈ files, ∀ q ∈ files, p ≠ q → stepDest fs0 t p ≠ none →
        stepDest fs0 t p ≠ stepDest fs0 t q) →
      (∀ p ∈ files, fsc.lookupFile p = fs0.lookupFile p) →
      (∀ x : String, x ∉ files → (∀ v ∈ files, stepDest fs0 t v ≠ some x) →
          (process_files fsc t files).lookupFile x = fsc.lookupFile x)
      ∧ (∀ p ∈ files, stepCat fs0 p = none →
          (process_files fsc t files).lookupFile p = fs0.lookupFile p)
      ∧ (∀ p ∈ files, ∀ c, stepCat fs0 p = some c →
          (process_files fsc t files).lookupFile (destPath t c p) = fs0.lookupFile p
          ∧ (process_files fsc t files).lookupFile p = none) := by
  intro files
  induction files with
  | nil =>
    intro fsc _ _ _ _
    exact ⟨fun x _ _ => rfl,
      fun p hp => absurd hp (List.not_mem_nil p),
      fun p hp => absurd hp (List.not_mem_nil p)⟩
  | cons p rest ih =>
    intro fsc hnd hsrc hdest hlook
    have hndr : rest.Nodup := (List.nodup_cons.mp hnd).2
    have hpnr : p ∉ rest := (List.nodup_cons.mp hnd).1
    have hsrcr : ∀ v ∈ rest, ((t ++ "/").toList.isPrefixOf v.toList) = false :=
      fun v hv => hsrc v (List.mem_cons_of_mem p hv)
    have hdestr : ∀ a ∈ rest, ∀ b ∈ rest, a ≠ b → stepDest fs0 t a ≠ none →
        stepDest fs0 t a ≠ stepDest fs0 t b :=
      fun a ha b hb => hdest a (List.mem_cons_of_mem p ha) b (List.mem_cons_of_mem p hb)
    have hstep : stepCat fsc p = stepCat fs0 p :=
      stepCat_congr fs0 fsc p (hlook p (List.mem_cons_self p rest))
    rw [process_files_cons]
    cases hp : stepCat fs0 p with
    | none =>
      have hone : process_one fsc t p = fsc :=
        process_one_eq_of_stepCat_none fsc t p (hstep.trans hp)
      rw [hone]
      have IH := ih fsc hndr hsrcr hdestr
        (fun v hv => hlook v (List.mem_cons_of_mem p hv))
      refine ⟨?_, ?_, ?_⟩
      · intro x hx hxd
        exact IH.1 x (fun hc => hx (List.mem_cons_of_mem p hc))
          (fun v hv => hxd v (List.mem_cons_of_mem p hv))
      · intro q hq hqnone
        rcases List.mem_cons.mp hq with heq | hq'
        · subst heq
          have hfr : (process_files fsc t rest).lookupFile q = fsc.lookupFile q :=
            IH.1 q hpnr
              (fun v hv => stepDest_ne_of_not_target fs0 t v q
                (hsrc q (List.mem_cons_self q rest)))
          rw [hfr]
          exact hlook q (List.mem_cons_self q rest)
        · exact IH.2.1 q hq' hqnone
      · intro q hq cq hqc
        rcases List.mem_cons.mp hq with heq | hq'
        · subst heq
          rw [hp] at hqc
          cases hqc
        · exact IH.2.2 q hq' cq hqc
    | some c =>
      rcases process_one_eq_of_stepCat_some fsc t p c (hstep.trans hp) with ⟨d, hd, hchar⟩
      have hfs0d : fs0.lookupFile p = some d := by
        rw [← hlook p (List.mem_cons_self p rest)]
        exact hd
      have hlookr : ∀ v ∈ rest, (process_one fsc t p).lookupFile v = fs0.lookupFile v := by
        intro v hv
        rw [hchar v, if_neg (not_target_ne_dest (hsrcr v hv) c p),
          if_neg (fun hc : v = p => hpnr (hc ▸ hv))]
        exact hlook v (List.mem_cons_of_mem p hv)
      have IH := ih (process_one fsc t p) hndr hsrcr hdestr hlookr
      have hprefix_dest : ((t ++ "/").toList.isPrefixOf (destPath t c p).toList) = true := by
        have hdp : destPath t c p = (t ++ "/") ++ (c ++ ("/" ++ basename p)) := by
          unfold destPath
          rw [String.append_assoc, String.append_assoc]
        rw [hdp, toList_append]
        exact isPrefixOf_append_list _ _
      have hdp_ne_rest : destPath t c p ∉ rest := by
        intro hc
        have := hsrcr _ hc
        rw [hprefix_dest] at this
        cases this
      refine ⟨?_, ?_, ?_⟩
      · intro x hx hxd
        have hxs : x ∉ rest := fun hc => hx (List.mem_cons_of_mem p hc)
        have hxd' : ∀ v ∈ rest, stepDest fs0 t v ≠ some x :=
          fun v hv => hxd v (List.mem_cons_of_mem p hv)
        rw [IH.1 x hxs hxd']
        have hxdp : x ≠ destPath t c p := by
          have hne := hxd p (List.mem_cons_self p rest)
          rw [stepDest_some fs0 t p c hp] at hne
          intro hc
          exact hne (by rw [hc])
        have hxp : x ≠ p := fun hc => hx (List.mem_cons.mpr (Or.inl hc))
        rw [hchar x, if_neg hxdp, if_neg hxp]
      · intro q hq hqnone
        rcases List.mem_cons.mp hq with heq | hq'
        · subst heq
          rw [hp] at hqnone
          cases hqnone
        · exact IH.2.1 q hq' hqnone
      · intro q hq cq hqc
        rcases List.mem_cons.mp hq with heq | hq'
        · subst heq
          rw [hp] at hqc
          injection hqc with hcq
          subst hcq
          constructor
          · have hdd : ∀ v ∈ rest, stepDest fs0 t v ≠ some (destPath t c q) := by
              intro v hv hvd
              have hqv : q ≠ v := fun hc => hpnr (hc ▸ hv)
              have h1 := hdest q (List.mem_cons_self q rest) v
                (List.mem_cons_of_mem q hv) hqv
              rw [stepDest_some fs0 t q c hp] at h1
              exact h1 (by simp) hvd.symm
            rw [IH.1 (destPath t c q) hdp_ne_rest hdd, hchar (destPath t c q),
              if_pos rfl]
            exact hfs0d.symm
          · have hpd : ∀ v ∈ rest, stepDest fs0 t v ≠ some q :=
              fun v hv => stepDest_ne_of_not_target fs0 t v q
                (hsrc q (List.mem_cons_self q rest))
            rw [IH.1 q hpnr hpd, hchar q,
              if_neg (not_target_ne_dest (hsrc q (List.mem_cons_self q rest)) c q),
              if_pos rfl]
        · exact IH.2.2 q hq' cq hqc

/-! ## Claim theorems: batch partial-failure isolation (C2) -/

/-- C2: every per-file failure is absorbed inside the per-file loop — a file
whose step decides `none` (unsupported, extraction error, missing file, empty
text, or no category) keeps its source entry unchanged — the loop always
proceeds to the rest of the batch, and in a duplicate-free batch outside the
target tree with collision-free destinations, every valid file is moved to its
destination with its data intact while every failing file remains in the
source directory. -/
theorem process_files_partial_failure_isolation :
    ∀ (fs : FS) (t : String) (files : List String),
      files.Nodup →
      (∀ p ∈ files, ((t ++ "/").toList.isPrefixOf p.toList) = false) →
      (∀ p ∈ files, ∀ q ∈ files, p ≠ q → stepDest fs t p ≠ none →
        stepDest fs t p ≠ stepDest fs t q) →
      (∀ (fs' : FS) (q : String) (rest : List String),
        process_files fs' t (q :: rest) = process_files (process_one fs' t q) t rest)
      ∧ (∀ p ∈ files, stepCat fs p = none →
          (process_files fs t files).lookupFile p = fs.lookupFile p)
      ∧ (∀ p ∈ files, ∀ c, stepCat fs p = some c →
          (process_files fs t files).lookupFile (destPath t c p) = fs.lookupFile p
          ∧ (process_files fs t files).lookupFile p = none) := by
  intro fs t files hnd hsrc hdest
  have H := process_files_aux t fs files fs hnd hsrc hdest (fun p _ => rfl)
  exact ⟨fun fs' q rest => rfl, H.2.1, H.2.2⟩

/-- A document that categorizes as a thesis. -/
def thesisData : FileData :=
  { blankData with docxParas := Except.ok [kw "My thesis."] }

/-- A corrupt supported-format document: its parser raises. -/
def corruptData : FileData :=
  { blankData with docxParas := Except.error "bad zip header" }

/-- A document that categorizes as a report. -/
def reportData : FileData :=
  { blankData with docxParas := Except.ok [kw "Weekly report"] }

/-- The filesystem of the C2 witness batch: two valid files around one
corrupt file. -/
def batchFS : FS :=
  { dirs := ["tgt"],
    files := [("src/a_thesis.docx", thesisData),
              ("src/corrupt.docx", corruptData),
              ("src/b_report.docx", reportData)] }

/-- The discovered file list of the C2 witness batch. -/
def batchFiles : List String :=
  ["src/a_thesis.docx", "src/corrupt.docx", "src/b_report.docx"]

/-- C2 witness: in the three-file batch, both valid files reach their
category destinations and lose their source entries while the corrupt file in
the middle stays in the source directory untouched. -/
theorem process_files_partial_failure_isolation_witness :
    stepCat batchFS "src/corrupt.docx" = none
    ∧ (process_files batchFS "tgt" batchFiles).lookupFile "src/corrupt.docx"
        = batchFS.lookupFile "src/corrupt.docx"
    ∧ (process_files batchFS "tgt" batchFiles).lookupFile
        (destPath "tgt" "Theses & Dissertations" "src/a_thesis.docx")
        = batchFS.lookupFile "src/a_thesis.docx"
    ∧ (process_files batchFS "tgt" batchFiles).lookupFile "src/a_thesis.docx" = none
    ∧ (process_files batchFS "tgt" batchFiles).lookupFile
        (destPath "tgt" "Reports" "src/b_report.docx")
        = batchFS.lookupFile "src/b_report.docx"
    ∧ (process_files batchFS "tgt" batchFiles).lookupFile "src/b_report.docx" = none := by
  have H := process_files_partial_failure_isolation batchFS "tgt" batchFiles
    (by decide) (by decide) (by decide)
  exact ⟨by decide,
    H.2.1 "src/corrupt.docx" (by decide) (by decide),
    (H.2.2 "src/a_thesis.docx" (by decide) "Theses & Dissertations" (by decide)).1,
    (H.2.2 "src/a_thesis.docx" (by decide) "Theses & Dissertations" (by decide)).2,
    (H.2.2 "src/b_report.docx" (by decide) "Reports" (by decide)).1,
    (H.2.2 "src/b_report.docx" (by decide) "Reports" (by decide)).2⟩
